import Mathlib

/-!
Verification development for the SME_UnB transductor data-model repository.

The repository consists of Django model declarations
(`SME_UnB/transductor/models.py`) and one schema migration
(`src/transductor/migrations/0005_auto_20161012_2000.py`).  We embed the
declared schemas, the declared write-time constraints, and the three
power-aggregation methods as executable Lean definitions and prove the
specified properties about them.

Modelling conventions:
- Python `float` column values are modelled as rationals (`ℚ`): the
  properties under study concern which fields are summed and how absent
  values propagate, not rounding behaviour of IEEE arithmetic.
- a field declared with `default=None` starts out unset, so its value is
  an `Option`; Python raising `TypeError` on `None + x` is modelled by
  the addition on `Option` returning `none` (the error is propagated to
  the caller).
- `DateTimeField` values are modelled as integers (an epoch timestamp);
  only their identity matters to the properties proved here.
- the database is a record of lists of stored rows; the write operations
  enforce the constraints the framework actually derives from the
  declarations (`unique=True`, `CharField` widths, the `RegexValidator`
  under Python `re` semantics where `$` also matches before one trailing
  newline, foreign keys, `on_delete=CASCADE`, and the storage layer's
  rectangularity requirement on nested arrays).  `TextField(max_length)`
  derives no constraint: the framework ignores `max_length` on text
  fields outside form widgets.
-/

/-- Python `+` on two possibly-absent float values: if either operand is
`None` the call raises `TypeError` (modelled as `none`), otherwise it
returns the sum. -/
def pyAdd (x y : Option ℚ) : Option ℚ :=
  match x, y with
  | some a, some b => some (a + b)
  | _, _ => none

/-- Row type for the polymorphic base model `Measurements`:
`collection_date = models.DateTimeField('date published')` and
`collection_minute = models.IntegerField(default=None)`. -/
structure Measurements where
  collection_date : Int
  collection_minute : Option Int
deriving DecidableEq, Repr

/-- Row type for `EnergyMeasurements(Measurements)`: a foreign key to an
`EnergyTransductor` (held as the referenced row id) and fifteen
`FloatField(default=None)` columns, three phases each of voltage,
current, active power, reactive power and apparent power. -/
structure EnergyMeasurements extends Measurements where
  transductor : Nat
  voltage_a : Option ℚ
  voltage_b : Option ℚ
  voltage_c : Option ℚ
  current_a : Option ℚ
  current_b : Option ℚ
  current_c : Option ℚ
  active_power_a : Option ℚ
  active_power_b : Option ℚ
  active_power_c : Option ℚ
  reactive_power_a : Option ℚ
  reactive_power_b : Option ℚ
  reactive_power_c : Option ℚ
  apparent_power_a : Option ℚ
  apparent_power_b : Option ℚ
  apparent_power_c : Option ℚ
deriving DecidableEq, Repr

/-- Method `EnergyMeasurements.calculate_total_active_power`.  A Python
method receives `self` and may in principle mutate it, so the embedding
threads `self` through and returns it alongside the result; the body
only reads attributes:
`return (self.active_power_a + self.active_power_b + self.active_power_c)`. -/
def EnergyMeasurements.calculate_total_active_power
    (self : EnergyMeasurements) : Option ℚ × EnergyMeasurements :=
  (pyAdd (pyAdd self.active_power_a self.active_power_b) self.active_power_c, self)

/-- Method `EnergyMeasurements.calculate_total_reactive_power`:
`return (self.reactive_power_a + self.reactive_power_b + self.reactive_power_c)`. -/
def EnergyMeasurements.calculate_total_reactive_power
    (self : EnergyMeasurements) : Option ℚ × EnergyMeasurements :=
  (pyAdd (pyAdd self.reactive_power_a self.reactive_power_b) self.reactive_power_c, self)

/-- Method `EnergyMeasurements.calculate_total_apparent_power`; the body
copies the three phase attributes into locals, sums them and returns the
total. -/
def EnergyMeasurements.calculate_total_apparent_power
    (self : EnergyMeasurements) : Option ℚ × EnergyMeasurements :=
  let ap_phase_a := self.apparent_power_a
  let ap_phase_b := self.apparent_power_b
  let ap_phase_c := self.apparent_power_c
  let ap_total := pyAdd (pyAdd ap_phase_a ap_phase_b) ap_phase_c
  (ap_total, self)

/-- A concrete measurement with all fifteen float fields populated, used
to witness the aggregation theorems. -/
def sampleMeasurement : EnergyMeasurements :=
  { collection_date := 0
    collection_minute := some 0
    transductor := 1
    voltage_a := some 220, voltage_b := some 220, voltage_c := some 220
    current_a := some 5, current_b := some 5, current_c := some 5
    active_power_a := some 1, active_power_b := some 2, active_power_c := some 3
    reactive_power_a := some 4, reactive_power_b := some 5, reactive_power_c := some 6
    apparent_power_a := some 7, apparent_power_b := some 8, apparent_power_c := some 9 }

/-- A concrete measurement whose power fields were never populated, used
to witness the missing-value error theorem. -/
def unsetMeasurement : EnergyMeasurements :=
  { collection_date := 0
    collection_minute := some 0
    transductor := 1
    voltage_a := none, voltage_b := none, voltage_c := none
    current_a := none, current_b := none, current_c := none
    active_power_a := none, active_power_b := some 2, active_power_c := some 3
    reactive_power_a := some 4, reactive_power_b := none, reactive_power_c := some 6
    apparent_power_a := some 7, apparent_power_b := some 8, apparent_power_c := none }

/-- Character class `[0-9]` of the ip_address regex. -/
def isAsciiDigit (c : Char) : Bool :=
  decide ('0' ≤ c) && decide (c ≤ '9')

/-- One `[0-9]{1,3}` repetition of the anchored ip_address regex
`^(?:[0-9]{1,3}\.){3}[0-9]{1,3}$`, consuming its input from the front.
Every occurrence of the repetition in the regex is followed by `\.` or
by the `$` anchor, neither of which matches a digit, so the greedy match
without backtracking used here accepts exactly what the backtracking
regex engine accepts: the repetition must consume the whole leading
digit run, and that run must have length 1 to 3. -/
def matchOctet (cs : List Char) : Option (List Char) :=
  if 1 ≤ (cs.takeWhile isAsciiDigit).length ∧
      (cs.takeWhile isAsciiDigit).length ≤ 3 then
    some (cs.dropWhile isAsciiDigit)
  else none

/-- The `\.` atom of the ip_address regex. -/
def expectDot : List Char → Option (List Char)
  | [] => none
  | x :: rest => if x = '.' then some rest else none

/-- The consuming atoms of the anchored regex
`^(?:[0-9]{1,3}\.){3}[0-9]{1,3}$` in sequence: three octet-and-dot
groups then a final octet, returning the unconsumed remainder. -/
def ipRegexChain (cs : List Char) : Option (List Char) :=
  ((((((matchOctet cs).bind expectDot).bind matchOctet).bind
    expectDot).bind matchOctet).bind expectDot).bind matchOctet

/-- The `$` anchor under the semantics of the Python `re` engine that
`RegexValidator` runs on: `$` matches at the end of the string, or just
before a single newline that ends the string. -/
def dollarAnchor (cs : List Char) : Bool :=
  decide (cs = [] ∨ cs = ['\n'])

/-- The full anchored regex `^(?:[0-9]{1,3}\.){3}[0-9]{1,3}$`: the
consuming atoms followed by the Python-semantics `$` anchor, which also
accepts one trailing newline. -/
def ipRegexAccepts (cs : List Char) : Bool :=
  match ipRegexChain cs with
  | some r => dollarAnchor r
  | none => false

/-- The `RegexValidator` declared on `Transductor.ip_address`: accept
strings matched by the dotted-quad regex, reject all others with the
declared message (code `invalid_ip_address`). -/
def validate_ip_address (s : String) : Except String Unit :=
  if ipRegexAccepts s.data then Except.ok ()
  else Except.error "Incorrect IP address format"

/-- Specification-side reading of one regex group: a nonempty run of at
most three ASCII digits. -/
def IsOctet (cs : List Char) : Prop :=
  cs ≠ [] ∧ cs.length ≤ 3 ∧ ∀ c ∈ cs, isAsciiDigit c = true

/-- Specification-side reading of the dotted-quad pattern
`^(\d{1,3}\.){3}\d{1,3}$` on character lists: four digit groups of one
to three digits joined by single dots. -/
def DottedQuadChars (cs : List Char) : Prop :=
  ∃ a b c d : List Char, IsOctet a ∧ IsOctet b ∧ IsOctet c ∧ IsOctet d ∧
    cs = a ++ '.' :: (b ++ '.' :: (c ++ '.' :: d))

/-- A string that is exactly a dotted quad. -/
def DottedQuad (s : String) : Prop :=
  DottedQuadChars s.data

/-- A string that is a dotted quad followed by one trailing newline:
also accepted by the validator, because Python `$` matches before a
final newline. -/
def DottedQuadNewline (s : String) : Prop :=
  ∃ t : List Char, s.data = t ++ ['\n'] ∧ DottedQuadChars t

/-- The model-level validation of a single `IntegerField` value: the
declaration carries no validators. -/
def integerFieldValid (_ : Int) : Bool := true

/-- Validation of `ArrayField(base_field)`: each element is validated
against the base field.  The declaration on
`TransductorModel.register_addresses` nests two of these:
`ArrayField(ArrayField(models.IntegerField()))`. -/
def arrayFieldValid {α : Type} (base : α → Bool) (xs : List α) : Bool :=
  xs.all base

/-- Validation induced by the declaration
`register_addresses = ArrayField(ArrayField(models.IntegerField()))`:
a list of lists of integers, with no constraint on inner lengths (the
declaration passes no size argument). -/
def registerAddressesValid : List (List Int) → Bool :=
  arrayFieldValid (arrayFieldValid integerFieldValid)

/-- Row type for `TransductorModel`: auto primary key, then
`name = CharField(max_length=50, unique=True)`,
`internet_protocol = CharField(max_length=50)`,
`serial_protocol = CharField(max_length=50)`,
`register_addresses = ArrayField(ArrayField(IntegerField()))`. -/
structure TransductorModelRow where
  id : Nat
  name : String
  internet_protocol : String
  serial_protocol : String
  register_addresses : List (List Int)
deriving DecidableEq, Repr

/-- Row type for the concrete `EnergyTransductor(Transductor)`: the
abstract base `Transductor` contributes
`model = ForeignKey(TransductorModel)` (held as the referenced row id),
`serie_number = IntegerField(default=None)`,
`ip_address = CharField(max_length=15, unique=True, validators=[RegexValidator(...)])`,
`description = TextField(max_length=150)`,
`creation_date = DateTimeField('date published')`;
`EnergyTransductor` adds no fields. -/
structure EnergyTransductorRow where
  id : Nat
  model : Nat
  serie_number : Option Int
  ip_address : String
  description : String
  creation_date : Int
deriving DecidableEq, Repr

def isOk : Except String Unit → Bool
  | Except.ok _ => true
  | Except.error _ => false

/-- The per-field validation declared on the abstract `Transductor`
base: the ip_address regex validator and the ip_address column width.
The `max_length=150` passed to `TextField` on `description` appears
nowhere here: unlike `CharField`, `TextField` attaches no
`MaxLengthValidator`, and the backing text column is unbounded, so no
length check runs on description at validation or storage. -/
def transductorFieldsValid (t : EnergyTransductorRow) : Bool :=
  isOk (validate_ip_address t.ip_address) &&
  decide (t.ip_address.length ≤ 15)

/-- The per-field validation declared on `TransductorModel`: the three
CharField widths and the register-map array validation. -/
def transductorModelFieldsValid (r : TransductorModelRow) : Bool :=
  decide (r.name.length ≤ 50) &&
  decide (r.internet_protocol.length ≤ 50) &&
  decide (r.serial_protocol.length ≤ 50) &&
  registerAddressesValid r.register_addresses

/-- Stored state: one table per concrete model. -/
structure DB where
  transductor_models : List TransductorModelRow
  energy_transductors : List EnergyTransductorRow
  energy_measurements : List EnergyMeasurements
deriving DecidableEq, Repr

def emptyDB : DB := ⟨[], [], []⟩

/-- Rectangularity of the nested `register_addresses` array: the
storage layer keeps a nested `ArrayField` as a PostgreSQL
multidimensional array, which requires every inner array to have the
same length. -/
def isRectangular : List (List Int) → Bool
  | [] => true
  | x :: rest => rest.all fun y => y.length == x.length

/-- Saving a `TransductorModel` row: fails (returning `none`, the
constraint violation surfaced to the caller) on a duplicate primary
key, on a duplicate `name` (the declared `unique=True`), when field
validation fails, or when the register map is not a rectangular nested
array (rejected by the storage layer); otherwise the row is stored. -/
def insertTransductorModel (db : DB) (r : TransductorModelRow) :
    Option DB :=
  if db.transductor_models.any fun x => x.id == r.id then none
  else if db.transductor_models.any fun x => x.name == r.name then none
  else if transductorModelFieldsValid r &&
      isRectangular r.register_addresses then
    some { db with transductor_models := r :: db.transductor_models }
  else none

/-- Saving an `EnergyTransductor` row: fails on a duplicate primary
key, a duplicate `ip_address` (the declared `unique=True`), a
`model` reference to no stored `TransductorModel`, or failing field
validation; otherwise the row is stored. -/
def insertEnergyTransductor (db : DB) (t : EnergyTransductorRow) :
    Option DB :=
  if db.energy_transductors.any fun x => x.id == t.id then none
  else if db.energy_transductors.any fun x => x.ip_address == t.ip_address
    then none
  else if db.transductor_models.any fun x => x.id == t.model then
    if transductorFieldsValid t then
      some { db with energy_transductors := t :: db.energy_transductors }
    else none
  else none

/-- Saving an `EnergyMeasurements` row: the declared
`ForeignKey(EnergyTransductor, on_delete=models.CASCADE)` requires the
referenced device to be stored. -/
def insertEnergyMeasurement (db : DB) (m : EnergyMeasurements) :
    Option DB :=
  if db.energy_transductors.any fun t => t.id == m.transductor then
    some { db with energy_measurements := m :: db.energy_measurements }
  else none

/-- Deleting an `EnergyTransductor` row: the row goes away, and by the
declared `on_delete=models.CASCADE` on `EnergyMeasurements.transductor`
every measurement referencing it is deleted with it. -/
def deleteEnergyTransductor (db : DB) (tid : Nat) : DB :=
  { db with
    energy_transductors := db.energy_transductors.filter fun t => t.id != tid
    energy_measurements :=
      db.energy_measurements.filter fun m => m.transductor != tid }

/-- States reachable from the empty database through the write
operations. -/
inductive Reachable : DB → Prop where
  | empty : Reachable emptyDB
  | insert_model {db db₂ : DB} {r : TransductorModelRow} :
      Reachable db → insertTransductorModel db r = some db₂ → Reachable db₂
  | insert_transductor {db db₂ : DB} {t : EnergyTransductorRow} :
      Reachable db → insertEnergyTransductor db t = some db₂ → Reachable db₂
  | insert_measurement {db db₂ : DB} {m : EnergyMeasurements} :
      Reachable db → insertEnergyMeasurement db m = some db₂ → Reachable db₂
  | delete_transductor {db : DB} (tid : Nat) :
      Reachable db → Reachable (deleteEnergyTransductor db tid)

/-- Referential integrity of the measurement table: every stored
measurement references a stored device. -/
def fkIntegrity (db : DB) : Bool :=
  db.energy_measurements.all fun m =>
    db.energy_transductors.any fun t => t.id == m.transductor

/-- A `TransductorModel` row matching the docstring example. -/
def sampleModelRow : TransductorModelRow :=
  ⟨1, "Test Name", "UDP", "Modbus RTU", [[68, 0], [70, 1]]⟩

/-- An `EnergyTransductor` row matching the docstring example. -/
def sampleTransductorRow : EnergyTransductorRow :=
  ⟨1, 1, some 1, "1.1.1.1", "Energy Transductor Test", 0⟩

def dbWithModel : DB := ⟨[sampleModelRow], [], []⟩

def dbWithTransductor : DB := ⟨[sampleModelRow], [sampleTransductorRow], []⟩

def dbWithMeasurement : DB :=
  ⟨[sampleModelRow], [sampleTransductorRow], [sampleMeasurement]⟩

/-- A second model row reusing the stored name "Test Name". -/
def dupNameModelRow : TransductorModelRow :=
  ⟨2, "Test Name", "TCP", "Modbus TCP", [[10, 1]]⟩

/-- A device row whose description has 151 characters. -/
def longDescriptionRow : EnergyTransductorRow :=
  ⟨2, 1, some 2, "2.2.2.2", String.mk (List.replicate 151 'a'), 0⟩

/-- Field kinds appearing in the migration under study. -/
inductive FieldKind where
  | booleanField (default : Bool)
  | otherField (typeName : String)
deriving DecidableEq, Repr

/-- One declared field of a model schema. -/
structure FieldDecl where
  fname : String
  kind : FieldKind
deriving DecidableEq, Repr

/-- The schema of one model: its name and its declared fields. -/
structure ModelSchema where
  mname : String
  fields : List FieldDecl
deriving DecidableEq, Repr

/-- Operation `migrations.RemoveField(model_name=..., name=...)`: drop the named
field from the named model. -/
def removeField (s : List ModelSchema) (model fieldName : String) :
    List ModelSchema :=
  s.map fun m =>
    if m.mname == model then
      { m with fields := m.fields.filter fun f => f.fname != fieldName }
    else m

/-- Operation `migrations.AddField(model_name=..., name=..., field=...)`: append
the field to the named model. -/
def addField (s : List ModelSchema) (model : String) (f : FieldDecl) :
    List ModelSchema :=
  s.map fun m =>
    if m.mname == model then { m with fields := m.fields ++ [f] }
    else m

/-- Migration `0005_auto_20161012_2000`, applied after dependency
`0004_energytransductor_working_correctly`: its operations remove field
`working_correctly` from `energytransductor`, then add field
`broken = models.BooleanField(default=False)` to it. -/
def migration0005 (s : List ModelSchema) : List ModelSchema :=
  addField (removeField s "energytransductor" "working_correctly")
    "energytransductor" ⟨"broken", FieldKind.booleanField false⟩

/-- The `energytransductor` schema as migration 0004 leaves it: the
base fields plus the `working_correctly` boolean flag. -/
def energyTransductorSchema0004 : ModelSchema :=
  ⟨"energytransductor",
    [⟨"id", FieldKind.otherField "AutoField"⟩,
     ⟨"ip_address", FieldKind.otherField "CharField"⟩,
     ⟨"working_correctly", FieldKind.booleanField true⟩]⟩

def schemaAfter0004 : List ModelSchema := [energyTransductorSchema0004]

/-- The `energytransductor` schema migration 0005 produces from the
concrete post-0004 state. -/
def energyTransductorSchema0005 : ModelSchema :=
  ⟨"energytransductor",
    [⟨"id", FieldKind.otherField "AutoField"⟩,
     ⟨"ip_address", FieldKind.otherField "CharField"⟩,
     ⟨"broken", FieldKind.booleanField false⟩]⟩

/-- C1: on a measurement whose three active (resp. reactive, apparent)
phase fields are populated, `calculate_total_active_power` returns the
sum `active_power_a + active_power_b + active_power_c`, and likewise for
the reactive and apparent aggregations. -/
theorem calculate_totals_sum_phases (m : EnergyMeasurements)
    (a b c ra rb rc pa pb pc : ℚ)
    (ha : m.active_power_a = some a) (hb : m.active_power_b = some b)
    (hc : m.active_power_c = some c)
    (hra : m.reactive_power_a = some ra) (hrb : m.reactive_power_b = some rb)
    (hrc : m.reactive_power_c = some rc)
    (hpa : m.apparent_power_a = some pa) (hpb : m.apparent_power_b = some pb)
    (hpc : m.apparent_power_c = some pc) :
    m.calculate_total_active_power.1 = some (a + b + c) ∧
    m.calculate_total_reactive_power.1 = some (ra + rb + rc) ∧
    m.calculate_total_apparent_power.1 = some (pa + pb + pc) := by
  refine ⟨?_, ?_, ?_⟩ <;>
    simp [EnergyMeasurements.calculate_total_active_power,
      EnergyMeasurements.calculate_total_reactive_power,
      EnergyMeasurements.calculate_total_apparent_power,
      pyAdd, ha, hb, hc, hra, hrb, hrc, hpa, hpb, hpc]

/-- Witness for C1: with active phases 1.0, 2.0, 3.0 the active total is
6.0, and the reactive and apparent totals sum their phases likewise. -/
theorem calculate_totals_sum_phases_witness :
    sampleMeasurement.calculate_total_active_power.1 = some 6 ∧
    sampleMeasurement.calculate_total_reactive_power.1 = some 15 ∧
    sampleMeasurement.calculate_total_apparent_power.1 = some 24 := by
  have h := calculate_totals_sum_phases sampleMeasurement 1 2 3 4 5 6 7 8 9
    rfl rfl rfl rfl rfl rfl rfl rfl rfl
  norm_num at h
  exact h

/-- C2: if any of the three phase fields consumed by an aggregation
method is unset, that method call errors (returns `none`, the model of
the `TypeError` surfaced synchronously to the caller) rather than a
number. -/
theorem calculate_totals_error_on_unset (m : EnergyMeasurements) :
    ((m.active_power_a = none ∨ m.active_power_b = none ∨
        m.active_power_c = none) →
      m.calculate_total_active_power.1 = none) ∧
    ((m.reactive_power_a = none ∨ m.reactive_power_b = none ∨
        m.reactive_power_c = none) →
      m.calculate_total_reactive_power.1 = none) ∧
    ((m.apparent_power_a = none ∨ m.apparent_power_b = none ∨
        m.apparent_power_c = none) →
      m.calculate_total_apparent_power.1 = none) := by
  refine ⟨fun h => ?_, fun h => ?_, fun h => ?_⟩ <;>
    rcases h with h | h | h <;>
      simp [EnergyMeasurements.calculate_total_active_power,
        EnergyMeasurements.calculate_total_reactive_power,
        EnergyMeasurements.calculate_total_apparent_power, pyAdd, h]

/-- Witness for C2: on a measurement with `active_power_a` unset the
active aggregation errors, with `reactive_power_b` unset the reactive
aggregation errors, with `apparent_power_c` unset the apparent
aggregation errors. -/
theorem calculate_totals_error_on_unset_witness :
    unsetMeasurement.calculate_total_active_power.1 = none ∧
    unsetMeasurement.calculate_total_reactive_power.1 = none ∧
    unsetMeasurement.calculate_total_apparent_power.1 = none :=
  ⟨(calculate_totals_error_on_unset unsetMeasurement).1 (Or.inl rfl),
   (calculate_totals_error_on_unset unsetMeasurement).2.1 (Or.inr (Or.inl rfl)),
   (calculate_totals_error_on_unset unsetMeasurement).2.2 (Or.inr (Or.inr rfl))⟩

/-- C9: the three aggregation methods read only the nine power fields —
two measurements agreeing on those nine fields get equal results from
all three methods — and none of the calls modifies any field of the
record (the threaded `self` comes back unchanged). -/
theorem calculate_totals_noninterference (m₁ m₂ : EnergyMeasurements)
    (ha : m₁.active_power_a = m₂.active_power_a)
    (hb : m₁.active_power_b = m₂.active_power_b)
    (hc : m₁.active_power_c = m₂.active_power_c)
    (hra : m₁.reactive_power_a = m₂.reactive_power_a)
    (hrb : m₁.reactive_power_b = m₂.reactive_power_b)
    (hrc : m₁.reactive_power_c = m₂.reactive_power_c)
    (hpa : m₁.apparent_power_a = m₂.apparent_power_a)
    (hpb : m₁.apparent_power_b = m₂.apparent_power_b)
    (hpc : m₁.apparent_power_c = m₂.apparent_power_c) :
    m₁.calculate_total_active_power.1 = m₂.calculate_total_active_power.1 ∧
    m₁.calculate_total_reactive_power.1 = m₂.calculate_total_reactive_power.1 ∧
    m₁.calculate_total_apparent_power.1 = m₂.calculate_total_apparent_power.1 ∧
    m₁.calculate_total_active_power.2 = m₁ ∧
    m₁.calculate_total_reactive_power.2 = m₁ ∧
    m₁.calculate_total_apparent_power.2 = m₁ := by
  refine ⟨?_, ?_, ?_, rfl, rfl, rfl⟩ <;>
    simp [EnergyMeasurements.calculate_total_active_power,
      EnergyMeasurements.calculate_total_reactive_power,
      EnergyMeasurements.calculate_total_apparent_power,
      ha, hb, hc, hra, hrb, hrc, hpa, hpb, hpc]

/-- Witness for C9: `sampleMeasurement` and a copy with different
voltage, current, transductor and collection fields agree on all three
aggregations, and the calls leave the record unchanged. -/
theorem calculate_totals_noninterference_witness :
    sampleMeasurement.calculate_total_active_power.1 =
      ({ sampleMeasurement with
          collection_date := 99, transductor := 42,
          voltage_a := none, current_b := none } :
        EnergyMeasurements).calculate_total_active_power.1 ∧
    sampleMeasurement.calculate_total_active_power.2 = sampleMeasurement := by
  have h := calculate_totals_noninterference sampleMeasurement
    ({ sampleMeasurement with
        collection_date := 99, transductor := 42,
        voltage_a := none, current_b := none } : EnergyMeasurements)
    rfl rfl rfl rfl rfl rfl rfl rfl rfl
  exact ⟨h.1, h.2.2.2.1⟩

lemma takeWhile_append_all {p : Char → Bool} {a rest : List Char}
    (h : ∀ c ∈ a, p c = true) :
    (a ++ rest).takeWhile p = a ++ rest.takeWhile p := by
  induction a with
  | nil => simp
  | cons x xs ih =>
      simp only [List.cons_append, List.takeWhile_cons,
        h x (List.mem_cons_self x xs)]
      exact congrArg (x :: ·) (ih fun c hc => h c (List.mem_cons_of_mem x hc))

lemma dropWhile_append_all {p : Char → Bool} {a rest : List Char}
    (h : ∀ c ∈ a, p c = true) :
    (a ++ rest).dropWhile p = rest.dropWhile p := by
  induction a with
  | nil => simp
  | cons x xs ih =>
      simp only [List.cons_append, List.dropWhile_cons,
        h x (List.mem_cons_self x xs), if_pos]
      exact ih fun c hc => h c (List.mem_cons_of_mem x hc)

lemma takeWhile_dropWhile_nil (p : Char → Bool) (l : List Char) :
    (l.dropWhile p).takeWhile p = [] := by
  induction l with
  | nil => simp
  | cons x xs ih =>
      by_cases hx : p x <;>
        simp [List.dropWhile_cons, List.takeWhile_cons, hx, ih]

/-- Successful octet match decomposes the input: a digit run of length
one to three is consumed. -/
lemma matchOctet_some {cs rest : List Char}
    (h : matchOctet cs = some rest) :
    ∃ a, IsOctet a ∧ cs = a ++ rest := by
  unfold matchOctet at h
  split at h
  · rename_i hlen
    refine ⟨cs.takeWhile isAsciiDigit,
      ⟨?_, hlen.2, fun c hc => List.mem_takeWhile_imp hc⟩, ?_⟩
    · intro hnil
      simp [hnil] at hlen
    · rw [← Option.some_inj.mp h, List.takeWhile_append_dropWhile]
  · exact absurd h (by simp)

/-- Successful dot match means the input started with a dot. -/
lemma expectDot_some {r t : List Char} (h : expectDot r = some t) :
    r = '.' :: t := by
  cases r with
  | nil => simp [expectDot] at h
  | cons x rest =>
      by_cases hx : x = '.'
      · subst hx
        simp [expectDot] at h
        rw [h]
      · simp [expectDot, hx] at h

/-- An octet followed by input that starts with a non-digit is matched,
consuming exactly the octet. -/
lemma matchOctet_append {a rest : List Char} (ha : IsOctet a)
    (hrest : rest.takeWhile isAsciiDigit = []) :
    matchOctet (a ++ rest) = some rest := by
  obtain ⟨hne, hlen, hdig⟩ := ha
  have htake : (a ++ rest).takeWhile isAsciiDigit = a := by
    rw [takeWhile_append_all hdig, hrest, List.append_nil]
  have hdrop : (a ++ rest).dropWhile isAsciiDigit = rest := by
    have hsplit := List.takeWhile_append_dropWhile isAsciiDigit rest
    rw [dropWhile_append_all hdig]
    rw [hrest] at hsplit
    simpa using hsplit
  unfold matchOctet
  rw [htake, hdrop, if_pos]
  exact ⟨Nat.one_le_iff_ne_zero.mpr
    fun h0 => hne (List.eq_nil_of_length_eq_zero h0), hlen⟩

lemma takeWhile_dot_cons (t : List Char) :
    (('.' :: t) : List Char).takeWhile isAsciiDigit = [] := by
  simp [List.takeWhile_cons, isAsciiDigit]

/-- Successful runs of the consuming atoms decompose the input into
four octets joined by dots followed by the remainder; conversely any
such decomposition whose remainder does not start with a digit is a
successful run. -/
lemma ipRegexChain_eq_some {cs r : List Char}
    (hr : r.takeWhile isAsciiDigit = []) :
    ipRegexChain cs = some r ↔
      ∃ a b c d : List Char,
        IsOctet a ∧ IsOctet b ∧ IsOctet c ∧ IsOctet d ∧
        cs = a ++ '.' :: (b ++ '.' :: (c ++ '.' :: (d ++ r))) := by
  constructor
  · intro h
    unfold ipRegexChain at h
    rw [Option.bind_eq_some] at h
    obtain ⟨r₃, h, h₄⟩ := h
    rw [Option.bind_eq_some] at h
    obtain ⟨q₃, h, e₃⟩ := h
    rw [Option.bind_eq_some] at h
    obtain ⟨r₂, h, h₃⟩ := h
    rw [Option.bind_eq_some] at h
    obtain ⟨q₂, h, e₂⟩ := h
    rw [Option.bind_eq_some] at h
    obtain ⟨r₁, h, h₂⟩ := h
    rw [Option.bind_eq_some] at h
    obtain ⟨q₁, h₁, e₁⟩ := h
    obtain ⟨a, haoct, haeq⟩ := matchOctet_some h₁
    obtain ⟨b, hboct, hbeq⟩ := matchOctet_some h₂
    obtain ⟨c, hcoct, hceq⟩ := matchOctet_some h₃
    obtain ⟨d, hdoct, hdeq⟩ := matchOctet_some h₄
    refine ⟨a, b, c, d, haoct, hboct, hcoct, hdoct, ?_⟩
    rw [haeq, expectDot_some e₁, hbeq, expectDot_some e₂, hceq,
      expectDot_some e₃, hdeq]
  · rintro ⟨a, b, c, d, ha, hb, hc, hd, rfl⟩
    have e₁ := matchOctet_append ha
      (takeWhile_dot_cons (b ++ '.' :: (c ++ '.' :: (d ++ r))))
    have e₂ := matchOctet_append hb
      (takeWhile_dot_cons (c ++ '.' :: (d ++ r)))
    have e₃ := matchOctet_append hc (takeWhile_dot_cons (d ++ r))
    have e₄ : matchOctet (d ++ r) = some r := matchOctet_append hd hr
    simp only [ipRegexChain, e₁, e₂, e₃, e₄, Option.some_bind, expectDot,
      reduceIte]

lemma quad_append_assoc (a b c d r : List Char) :
    a ++ '.' :: (b ++ '.' :: (c ++ '.' :: (d ++ r))) =
      (a ++ '.' :: (b ++ '.' :: (c ++ '.' :: d))) ++ r := by
  simp [List.append_assoc]

/-- A character list is a dotted quad exactly when the consuming atoms
accept it leaving nothing. -/
lemma dottedQuadChars_iff_chain (cs : List Char) :
    DottedQuadChars cs ↔ ipRegexChain cs = some [] := by
  constructor
  · intro hq
    unfold DottedQuadChars at hq
    obtain ⟨a, b, c, d, ha, hb, hc, hd, rfl⟩ := hq
    exact (@ipRegexChain_eq_some _ [] rfl).mpr
      ⟨a, b, c, d, ha, hb, hc, hd, by simp⟩
  · intro h
    obtain ⟨a, b, c, d, ha, hb, hc, hd, heq⟩ :=
      (@ipRegexChain_eq_some _ [] rfl).mp h
    exact ⟨a, b, c, d, ha, hb, hc, hd, by simpa using heq⟩

/-- A character list is a dotted quad plus one trailing newline exactly
when the consuming atoms accept it leaving that newline. -/
lemma dottedQuadNewlineChars_iff_chain (cs : List Char) :
    (∃ t : List Char, cs = t ++ ['\n'] ∧ DottedQuadChars t) ↔
      ipRegexChain cs = some ['\n'] := by
  constructor
  · rintro ⟨t, rfl, hq⟩
    unfold DottedQuadChars at hq
    obtain ⟨a, b, c, d, ha, hb, hc, hd, rfl⟩ := hq
    exact (@ipRegexChain_eq_some _ ['\n'] (by decide)).mpr
      ⟨a, b, c, d, ha, hb, hc, hd, (quad_append_assoc a b c d ['\n']).symm⟩
  · intro h
    obtain ⟨a, b, c, d, ha, hb, hc, hd, heq⟩ :=
      (@ipRegexChain_eq_some _ ['\n'] (by decide)).mp h
    exact ⟨a ++ '.' :: (b ++ '.' :: (c ++ '.' :: d)),
      by rw [heq, quad_append_assoc],
      a, b, c, d, ha, hb, hc, hd, rfl⟩

/-- The matcher accepts exactly the dotted quads and the dotted quads
with one trailing newline. -/
lemma ipRegexAccepts_iff (cs : List Char) :
    ipRegexAccepts cs = true ↔
      (DottedQuadChars cs ∨ ∃ t : List Char,
        cs = t ++ ['\n'] ∧ DottedQuadChars t) := by
  rw [dottedQuadChars_iff_chain, dottedQuadNewlineChars_iff_chain]
  unfold ipRegexAccepts dollarAnchor
  cases h : ipRegexChain cs with
  | none => simp
  | some r => simp

/-- C3 counterexample: the claim that validation accepts exactly the
dotted-quad strings fails on the code: under Python regex semantics `$`
also matches before one trailing newline, so the validator accepts
"1.1.1.1\n", which is not a dotted quad. -/
theorem ip_address_validation_newline_accepted :
    validate_ip_address "1.1.1.1\n" = Except.ok () ∧
    ¬ DottedQuad ("1.1.1.1\n" : String) := by
  refine ⟨by rfl, fun hd => ?_⟩
  have hchain :=
    (dottedQuadChars_iff_chain (("1.1.1.1\n" : String).data)).mp hd
  exact absurd hchain (by decide)

/-- C3 amended: ip_address validation accepts a string exactly when it
is a dotted quad or a dotted quad followed by one trailing newline (the
Python semantics of the `$` anchor), and rejects every other string
with the invalid-IP-address-format error; the pattern does not bound
octets to 0-255, so "999.1.1.1" is accepted while "192.168.0" is
rejected. -/
theorem ip_address_validation_python_semantics :
    (∀ s : String, validate_ip_address s = Except.ok () ↔
      (DottedQuad s ∨ DottedQuadNewline s)) ∧
    (∀ s : String,
      validate_ip_address s = Except.error "Incorrect IP address format" ↔
        ¬ (DottedQuad s ∨ DottedQuadNewline s)) ∧
    validate_ip_address "999.1.1.1" = Except.ok () ∧
    validate_ip_address "192.168.0" =
      Except.error "Incorrect IP address format" ∧
    validate_ip_address "1.1.1.1\n" = Except.ok () := by
  have key : ∀ s : String, ipRegexAccepts s.data = true ↔
      (DottedQuad s ∨ DottedQuadNewline s) :=
    fun s => ipRegexAccepts_iff s.data
  refine ⟨fun s => ?_, fun s => ?_, by rfl, by rfl, by rfl⟩
  · constructor
    · intro h
      unfold validate_ip_address at h
      split at h
      · rename_i hv
        exact (key s).mp hv
      · exact absurd h (by simp)
    · intro h
      unfold validate_ip_address
      rw [if_pos ((key s).mpr h)]
  · constructor
    · intro h hd
      unfold validate_ip_address at h
      rw [if_pos ((key s).mpr hd)] at h
      exact absurd h (by simp)
    · intro h
      unfold validate_ip_address
      rw [if_neg fun hv => h ((key s).mp hv)]

/-- C10 counterexample: the claim that passing the regex validation
implies fitting the max_length=15 bound fails on the code:
"255.255.255.255\n" passes validation (Python `$` matches before the
trailing newline) yet has 16 characters. -/
theorem ip_regex_newline_exceeds_max_length :
    validate_ip_address "255.255.255.255\n" = Except.ok () ∧
    15 < ("255.255.255.255\n" : String).length :=
  ⟨by rfl, by decide⟩

/-- C10 amended: every string passing the ip_address regex validation
has length at most 16, and every dotted quad proper has length at most
15; the max_length=15 bound can reject a regex-valid value only in the
trailing-newline case. -/
theorem ip_regex_matches_fit_max_length (s : String)
    (h : validate_ip_address s = Except.ok ()) :
    s.length ≤ 16 ∧ (DottedQuad s → s.length ≤ 15) := by
  have hacc : ipRegexAccepts s.data = true := by
    unfold validate_ip_address at h
    split at h
    · assumption
    · exact absurd h (by simp)
  have hquadlen : ∀ cs : List Char, DottedQuadChars cs →
      cs.length ≤ 15 := by
    intro cs hq
    unfold DottedQuadChars at hq
    obtain ⟨a, b, c, d, ha, hb, hc, hd, rfl⟩ := hq
    have la := ha.2.1
    have lb := hb.2.1
    have lc := hc.2.1
    have ld := hd.2.1
    simp only [List.length_append, List.length_cons]
    omega
  have hlen : s.length = s.data.length := rfl
  constructor
  · rcases (ipRegexAccepts_iff s.data).mp hacc with hq | ⟨t, heq, hq⟩
    · rw [hlen]
      exact Nat.le_trans (hquadlen _ hq) (by omega)
    · rw [hlen, heq]
      have := hquadlen t hq
      simp only [List.length_append, List.length_cons, List.length_nil]
      omega
  · intro hd
    rw [hlen]
    exact hquadlen _ hd

/-- Witness for C10: "255.255.255.255" passes validation, is a dotted
quad, and fits in the 15-character column. -/
theorem ip_regex_matches_fit_max_length_witness :
    validate_ip_address "255.255.255.255" = Except.ok () ∧
    DottedQuad ("255.255.255.255" : String) ∧
    ("255.255.255.255" : String).length ≤ 15 := by
  have hdq : DottedQuad ("255.255.255.255" : String) :=
    (dottedQuadChars_iff_chain (("255.255.255.255" : String).data)).mpr
      (by decide)
  exact ⟨by rfl, hdq,
    (ip_regex_matches_fit_max_length "255.255.255.255" (by rfl)).2 hdq⟩

lemma reachable_dbWithModel : Reachable dbWithModel :=
  @Reachable.insert_model emptyDB dbWithModel sampleModelRow
    Reachable.empty (by decide)

lemma reachable_dbWithTransductor : Reachable dbWithTransductor :=
  @Reachable.insert_transductor dbWithModel dbWithTransductor
    sampleTransductorRow reachable_dbWithModel (by decide)

lemma reachable_dbWithMeasurement : Reachable dbWithMeasurement :=
  @Reachable.insert_measurement dbWithTransductor dbWithMeasurement
    sampleMeasurement reachable_dbWithTransductor (by decide)

lemma insertTransductorModel_eq_some {db db₂ : DB}
    {r : TransductorModelRow}
    (h : insertTransductorModel db r = some db₂) :
    db₂ = { db with transductor_models := r :: db.transductor_models } := by
  unfold insertTransductorModel at h
  split at h
  · exact absurd h (by simp)
  · split at h
    · exact absurd h (by simp)
    · split at h
      · exact (Option.some_inj.mp h).symm
      · exact absurd h (by simp)

lemma insertEnergyTransductor_eq_some {db db₂ : DB}
    {t : EnergyTransductorRow}
    (h : insertEnergyTransductor db t = some db₂) :
    db₂ = { db with energy_transductors := t :: db.energy_transductors } ∧
    transductorFieldsValid t = true := by
  unfold insertEnergyTransductor at h
  split at h
  · exact absurd h (by simp)
  · split at h
    · exact absurd h (by simp)
    · split at h
      · split at h
        · rename_i hv
          exact ⟨(Option.some_inj.mp h).symm, hv⟩
        · exact absurd h (by simp)
      · exact absurd h (by simp)

lemma insertEnergyMeasurement_eq_some {db db₂ : DB}
    {m : EnergyMeasurements}
    (h : insertEnergyMeasurement db m = some db₂) :
    db₂ = { db with energy_measurements := m :: db.energy_measurements } ∧
    (db.energy_transductors.any fun t => t.id == m.transductor) = true := by
  unfold insertEnergyMeasurement at h
  split at h
  · rename_i hex
    exact ⟨(Option.some_inj.mp h).symm, hex⟩
  · exact absurd h (by simp)

/-- Referential integrity holds in every reachable state. -/
lemma fkIntegrity_of_reachable {db : DB} (h : Reachable db) :
    fkIntegrity db = true := by
  induction h with
  | empty => rfl
  | insert_model hr heq ih =>
      obtain rfl := insertTransductorModel_eq_some heq
      simpa [fkIntegrity] using ih
  | insert_transductor hr heq ih =>
      obtain ⟨rfl, -⟩ := insertEnergyTransductor_eq_some heq
      simp only [fkIntegrity, List.all_eq_true] at ih ⊢
      intro m hm
      obtain ⟨t, ht, htid⟩ := List.any_eq_true.mp (ih m hm)
      exact List.any_eq_true.mpr ⟨t, List.mem_cons_of_mem _ ht, htid⟩
  | insert_measurement hr heq ih =>
      obtain ⟨rfl, hex⟩ := insertEnergyMeasurement_eq_some heq
      simp only [fkIntegrity, List.all_eq_true] at ih ⊢
      intro m hm
      rcases List.mem_cons.mp hm with rfl | hm
      · exact hex
      · exact ih m hm
  | delete_transductor tid hr ih =>
      simp only [fkIntegrity, List.all_eq_true] at ih ⊢
      intro m hm
      obtain ⟨hm₀, hne⟩ := List.mem_filter.mp hm
      obtain ⟨t, ht, htid⟩ := List.any_eq_true.mp (ih m hm₀)
      refine List.any_eq_true.mpr ⟨t, List.mem_filter.mpr ⟨ht, ?_⟩, htid⟩
      have htid₂ : t.id = m.transductor := by simpa using htid
      simpa [htid₂] using hne

/-- C4: deleting an `EnergyTransductor` removes every measurement whose
foreign key references it, and referential integrity (no stored
measurement referencing a nonexistent device) holds in every reachable
state. -/
theorem cascade_delete_energy_measurements :
    (∀ (db : DB) (tid : Nat),
      ∀ m ∈ (deleteEnergyTransductor db tid).energy_measurements,
        m.transductor ≠ tid) ∧
    (∀ db : DB, Reachable db → fkIntegrity db = true) := by
  constructor
  · intro db tid m hm
    have := (List.mem_filter.mp hm).2
    simpa using this
  · intro db h
    exact fkIntegrity_of_reachable h

/-- Witness for C4: the concrete reachable state holding one measurement
satisfies referential integrity, and deleting its device leaves no
measurement referencing it. -/
theorem cascade_delete_energy_measurements_witness :
    fkIntegrity dbWithMeasurement = true ∧
    ((deleteEnergyTransductor dbWithMeasurement 1).energy_measurements.all
      fun m => m.transductor != 1) = true := by
  refine ⟨cascade_delete_energy_measurements.2 dbWithMeasurement
    reachable_dbWithMeasurement,
    List.all_eq_true.mpr fun m hm => ?_⟩
  simpa using
    cascade_delete_energy_measurements.1 dbWithMeasurement 1 m hm

/-- C5: inserting a `TransductorModel` whose name is already stored
fails with a uniqueness violation, and the stored state is unchanged by
the failed insert. -/
theorem transductor_model_name_uniqueness (db : DB)
    (r s : TransductorModelRow) (hmem : r ∈ db.transductor_models)
    (hname : s.name = r.name) :
    insertTransductorModel db s = none ∧
    (insertTransductorModel db s).getD db = db := by
  have hclash : ∃ x ∈ db.transductor_models, x.name = s.name :=
    ⟨r, hmem, hname.symm⟩
  have hnone : insertTransductorModel db s = none := by
    simp [insertTransductorModel, hclash]
  exact ⟨hnone, by rw [hnone]; rfl⟩

/-- Witness for C5: inserting a second model named "Test Name" into the
state already holding one fails and leaves the state unchanged. -/
theorem transductor_model_name_uniqueness_witness :
    sampleModelRow ∈ dbWithModel.transductor_models ∧
    dupNameModelRow.name = sampleModelRow.name ∧
    insertTransductorModel dbWithModel dupNameModelRow = none ∧
    (insertTransductorModel dbWithModel dupNameModelRow).getD dbWithModel
      = dbWithModel := by
  have h := transductor_model_name_uniqueness dbWithModel sampleModelRow
    dupNameModelRow (by decide) (by decide)
  exact ⟨by decide, by decide, h.1, h.2⟩

/-- C7: the code accepts a device whose description exceeds 150
characters — `TextField(max_length=150)` attaches no length validator
and the backing text column is unbounded, so the save succeeds where
the specification expects a validation failure. -/
theorem long_description_accepted :
    (insertEnergyTransductor dbWithModel longDescriptionRow).isSome
      = true ∧
    150 < longDescriptionRow.description.length := by
  constructor
  · decide
  · simp [longDescriptionRow, String.length]

/-- C8: starting from a schema state in which `energytransductor` has
the `working_correctly` field (the state left by migration 0004),
applying migration 0005 leaves every `energytransductor` schema without
`working_correctly` and with a boolean `broken` field defaulting to
false. -/
theorem migration0005_replaces_flag (s : List ModelSchema)
    (m : ModelSchema) (hm : m ∈ s)
    (hname : m.mname = "energytransductor")
    (h04 : ∃ f ∈ m.fields, f.fname = "working_correctly") :
    (∀ m₂ ∈ migration0005 s, m₂.mname = "energytransductor" →
      (∀ f ∈ m₂.fields, f.fname ≠ "working_correctly") ∧
      FieldDecl.mk "broken" (FieldKind.booleanField false) ∈ m₂.fields) ∧
    (∃ m₂ ∈ migration0005 s, m₂.mname = "energytransductor") := by
  constructor
  · intro m₂ hmem hname₂
    obtain ⟨m₁, hm₁, hadd⟩ := List.mem_map.mp hmem
    obtain ⟨m₀, hm₀, hrem⟩ := List.mem_map.mp hm₁
    by_cases h₀ : m₀.mname = "energytransductor"
    · have hrem₂ : m₁ = { m₀ with
          fields := m₀.fields.filter fun f => f.fname != "working_correctly" } := by
        rw [← hrem]
        simp [h₀]
      have h₁ : m₁.mname = "energytransductor" := by rw [hrem₂]; exact h₀
      have hadd₂ : m₂ = { m₁ with
          fields := m₁.fields ++
            [FieldDecl.mk "broken" (FieldKind.booleanField false)] } := by
        rw [← hadd]
        simp [h₁]
      constructor
      · intro f hf
        rw [hadd₂] at hf
        rcases List.mem_append.mp hf with hf | hf
        · rw [hrem₂] at hf
          have := (List.mem_filter.mp hf).2
          simpa using this
        · have : f = FieldDecl.mk "broken" (FieldKind.booleanField false) := by
            simpa using hf
          rw [this]
          simp
      · rw [hadd₂]
        simp
    · have hrem₂ : m₁ = m₀ := by
        rw [← hrem]
        simp [h₀]
      have hadd₂ : m₂ = m₁ := by
        rw [← hadd, hrem₂]
        simp [h₀]
      rw [hadd₂, hrem₂] at hname₂
      exact absurd hname₂ h₀
  · have hm₁ : ({ m with
        fields := m.fields.filter fun f => f.fname != "working_correctly" } :
          ModelSchema) ∈
        removeField s "energytransductor" "working_correctly" := by
      refine List.mem_map.mpr ⟨m, hm, ?_⟩
      simp [hname]
    refine ⟨_, List.mem_map.mpr ⟨_, hm₁, rfl⟩, ?_⟩
    simp [hname]

/-- Witness for C8: on the concrete post-0004 schema, the migrated
`energytransductor` model has the boolean `broken` field with default
false and retains no `working_correctly` field. -/
theorem migration0005_replaces_flag_witness :
    FieldDecl.mk "broken" (FieldKind.booleanField false) ∈
      energyTransductorSchema0005.fields ∧
    (energyTransductorSchema0005.fields.all
      fun f => f.fname != "working_correctly") = true := by
  have h := migration0005_replaces_flag schemaAfter0004
    energyTransductorSchema0004 (by decide) rfl
    ⟨FieldDecl.mk "working_correctly" (FieldKind.booleanField true),
      by decide, rfl⟩
  have hmem : energyTransductorSchema0005 ∈ migration0005 schemaAfter0004 :=
    by decide
  obtain ⟨habs, hbrk⟩ := h.1 energyTransductorSchema0005 hmem rfl
  refine ⟨hbrk, List.all_eq_true.mpr fun f hf => ?_⟩
  simpa using habs f hf
